import Mathlib

/-!
Verification of the tiny-app repository's local cache & synchronization layer
(`DriveClient`, src/unnamed/part_002) and sandboxed-execution message protocol
(`AppRunner`, src/unnamed/part_000), shallowly embedded in Lean.

Modelling conventions:
* `localStorage` is a single string-keyed namespace; the client partitions it
  into disjoint key families (`session_<id>`, `sessions_<appId>`,
  `sessionsFolderId_<appId>`, `fileId_<parent>_<name>`, `appFiles_<appId>`,
  and the dedicated `tiny_app_files_cache` LRU table).  `CacheState` keeps one
  association list per family; keys are the full key strings the source builds.
  Association lists mirror JS object semantics: updating an existing key keeps
  its position, a new key is appended (JS string-key insertion order).
* Remote (network) calls are asynchronous in the source; each embedded
  operation takes the outcome of each remote call it may issue as an explicit
  parameter, and returns `(outcome, finalCacheState, networkAttempts)`.
  `networkAttempts` counts HTTP requests actually issued, so "fails before any
  network request" is `networkAttempts = 0`.
* `Date.now()` / `new Date().toISOString()` are passed in as explicit clock
  parameters.
* JSON values are modelled by `JVal`; `JSON.parse` of fetched content is folded
  into the remote-outcome parameter (a parse failure is a thrown error, like a
  failed fetch).  `JSON.stringify` only produces bytes for the wire and never
  affects client-visible state, so serialized request bodies are not modelled.
-/

/-- A JavaScript/JSON value. `undefined` is the JS undefined value (absent property).
(String index-spreading of `{...s}` for a primitive string `s` is not
modelled; the client never spreads a string.) -/
inductive JVal where
  | undefined
  | null
  | bool (b : Bool)
  | num (n : Int)
  | str (s : String)
  | obj (fields : List (String × JVal))

mutual

def JVal.decEq : (a b : JVal) → Decidable (a = b)
  | .undefined, .undefined => isTrue rfl
  | .null, .null => isTrue rfl
  | .bool a, .bool b =>
    match Bool.decEq a b with
    | isTrue h => isTrue (by rw [h])
    | isFalse h => isFalse (fun he => h (JVal.bool.inj he))
  | .num a, .num b =>
    match Int.decEq a b with
    | isTrue h => isTrue (by rw [h])
    | isFalse h => isFalse (fun he => h (JVal.num.inj he))
  | .str a, .str b =>
    match String.decEq a b with
    | isTrue h => isTrue (by rw [h])
    | isFalse h => isFalse (fun he => h (JVal.str.inj he))
  | .obj fs, .obj gs =>
    match JVal.decEqFields fs gs with
    | isTrue h => isTrue (by rw [h])
    | isFalse h => isFalse (fun he => h (JVal.obj.inj he))
  | .undefined, .null | .undefined, .bool _ | .undefined, .num _ | .undefined, .str _
  | .undefined, .obj _ | .null, .undefined | .null, .bool _ | .null, .num _
  | .null, .str _ | .null, .obj _ | .bool _, .undefined | .bool _, .null
  | .bool _, .num _ | .bool _, .str _ | .bool _, .obj _ | .num _, .undefined
  | .num _, .null | .num _, .bool _ | .num _, .str _ | .num _, .obj _
  | .str _, .undefined | .str _, .null | .str _, .bool _ | .str _, .num _
  | .str _, .obj _ | .obj _, .undefined | .obj _, .null | .obj _, .bool _
  | .obj _, .num _ | .obj _, .str _ => isFalse (fun he => JVal.noConfusion he)

def JVal.decEqFields :
    (a b : List (String × JVal)) → Decidable (a = b)
  | [], [] => isTrue rfl
  | [], _ :: _ => isFalse (fun he => List.noConfusion he)
  | _ :: _, [] => isFalse (fun he => List.noConfusion he)
  | (k, v) :: t, (l, w) :: s =>
    match String.decEq k l, JVal.decEq v w, JVal.decEqFields t s with
    | isTrue h1, isTrue h2, isTrue h3 => isTrue (by rw [h1, h2, h3])
    | isFalse h1, _, _ =>
      isFalse (fun he => by
        injection he with hhead htail
        exact h1 (congrArg Prod.fst hhead))
    | _, isFalse h2, _ =>
      isFalse (fun he => by
        injection he with hhead htail
        exact h2 (congrArg Prod.snd hhead))
    | _, _, isFalse h3 =>
      isFalse (fun he => by
        injection he with hhead htail
        exact h3 htail)

end

instance : DecidableEq JVal := JVal.decEq

deriving instance DecidableEq for Except

/-- JS truthiness test (on the values `JVal` models). -/
def jsFalsy : JVal → Bool
  | .undefined => true
  | .null => true
  | .bool false => true
  | .num 0 => true
  | .str "" => true
  | _ => false

/-- JS `a || b`. -/
def jsOr (a b : JVal) : JVal := if jsFalsy a then b else a

/-- Property access `v.k` on a JS value: `undefined` when missing or when `v`
is not an object. -/
def jget (v : JVal) (k : String) : JVal :=
  match v with
  | .obj fs => match fs.find? (fun p => p.1 == k) with
    | some p => p.2
    | none => .undefined
  | _ => .undefined

/-- The own-enumerable fields copied by a JS object spread `{...v}`:
the fields of an object, nothing for `null`/`undefined`/primitives. -/
def jsSpreadObj : JVal → List (String × JVal)
  | .obj fs => fs
  | _ => []

/-! ### Association-list maps with JS-object update semantics -/

/-- Lookup (`cache[key]` / `localStorage.getItem`). -/
def alget {V : Type} (m : List (String × V)) (k : String) : Option V :=
  (m.find? (fun p => p.1 == k)).map (fun p => p.2)

/-- JS object property write: in-place update for an existing key (keeps its
insertion position), append for a new key. -/
def alset {V : Type} (m : List (String × V)) (k : String) (v : V) :
    List (String × V) :=
  if m.any (fun p => p.1 == k) then
    m.map (fun p => if p.1 == k then (k, v) else p)
  else
    m ++ [(k, v)]

/-- Property/entry removal (`delete cache[key]` / `localStorage.removeItem`). -/
def aldel {V : Type} (m : List (String × V)) (k : String) : List (String × V) :=
  m.filter (fun p => p.1 != k)

namespace DriveClient

/-- `APP_CACHE_MAX` from the source. -/
def APP_CACHE_MAX : Nat := 4

/-- The content fields of one entry of the app-files LRU table
(`tiny_app_files_cache`): what `setAppCache` spreads from its `data` argument.
`getAppFiles` stores `{manifest, params, appHtml, syncTime}`; a `manifest` /
`params` of `none` models JS `null` (file absent on the remote). -/
structure AppPayload where
  manifest : Option JVal
  params : Option JVal
  appHtml : Option String
  syncTime : Nat
deriving DecidableEq

/-- One entry of the LRU table: the payload plus the `cachedAt` stamp
`setAppCache` adds. -/
structure AppEntry where
  payload : AppPayload
  cachedAt : Nat
deriving DecidableEq

/-- A value stored under a `session_<id>` key.  The source writes two shapes:
`{data, syncTime}` (from `saveSession` and the `getSession` fetch path) and —
only from `createSession` — the raw session record itself. -/
inductive SessCacheVal where
  | wrapped (data : JVal) (syncTime : Nat)
  | raw (record : JVal)
deriving DecidableEq

/-- The whole client-side cache: the LRU app-files table plus the
`localStorage` key families the claims touch (each family's keys are the full
key strings built by the source; the families are prefix-disjoint). -/
structure CacheState where
  appTable : List (String × AppEntry)
  sessions : List (String × SessCacheVal)
  sessionLists : List (String × JVal)
  sessionsFolderIds : List (String × String)
  fileIds : List (String × String)
  appFiles : List (String × JVal)
deriving DecidableEq

/-- Result of every embedded client operation: the JS return value or thrown
error message, the cache state when the call returns/throws, and the number of
network requests issued. -/
abbrev DRes (α : Type) := Except String α × CacheState × Nat

/-- Ordering used by `setAppCache`'s sort comparator
`(a, b) => a[1].cachedAt - b[1].cachedAt`. -/
def entLE (a b : String × AppEntry) : Prop := a.2.cachedAt ≤ b.2.cachedAt

instance : DecidableRel entLE := fun a b => Nat.decLe a.2.cachedAt b.2.cachedAt

instance : IsTotal (String × AppEntry) entLE :=
  ⟨fun a b => Nat.le_total a.2.cachedAt b.2.cachedAt⟩

instance : IsTrans (String × AppEntry) entLE :=
  ⟨fun _ _ _ => Nat.le_trans⟩

/-- `DriveClient.setAppCache` restricted to its effect on the LRU table
(the `localStorage` write that persists the table is state-free here).
JS `Array.prototype.sort` is stable and the comparator is a total preorder on
`cachedAt`, so any stable sort — here `List.insertionSort` — produces the same
result. -/
def setAppCacheTable (table : List (String × AppEntry)) (appId : String)
    (data : AppPayload) (now : Nat) : List (String × AppEntry) :=
  let cache := alset table appId ⟨data, now⟩
  if cache.length > APP_CACHE_MAX then
    let sorted := List.insertionSort entLE cache
    let toRemove := sorted.take (cache.length - APP_CACHE_MAX)
    cache.filter (fun p => !(toRemove.any (fun q => q.1 == p.1)))
  else
    cache

/-- `DriveClient.getAppFromCache`. -/
def getAppFromCache (st : CacheState) (appId : String) : Option AppEntry :=
  alget st.appTable appId

/-- `DriveClient.request`: checks the credential and throws
`'Not authenticated'` before issuing the HTTP request; otherwise the (single)
request is issued and `remote` is its outcome (a non-ok response is a thrown
error carrying the store's message). -/
def request (token : Option String) (remote : Except String JVal) :
    Except String JVal × Nat :=
  match token with
  | none => (.error "Not authenticated", 0)
  | some _ => (remote, 1)

/-- `DriveClient.createFile`: reads the token but never checks it — the
upload request is issued unconditionally.  `remote` is `some id` for an ok
response (the created file's id), `none` for a non-ok response.  (The file
content only goes to the wire and is not modelled.) -/
def createFile (token : Option String) (parentId name : String)
    (remote : Option String) : Except String String × Nat :=
  match remote with
  | some fid => (.ok fid, 1)
  | none => (.error ("Failed to create file: " ++ name), 1)

/-- `DriveClient.updateFile`: reads the token but never checks it — the
request is issued unconditionally. -/
def updateFile (token : Option String) (fileId : String)
    (remote : Option String) : Except String String × Nat :=
  match remote with
  | some r => (.ok r, 1)
  | none => (.error "Failed to update file", 1)

/-- `DriveClient.getFileContent`: reads the token but never checks it — the
request is issued unconditionally.  `remote` is the response text. -/
def getFileContent (token : Option String) (fileId : String)
    (remote : Option String) : Except String String × Nat :=
  match remote with
  | some s => (.ok s, 1)
  | none => (.error "Failed to get file content", 1)

/-- `DriveClient.findFile`: consult the `fileId_<parent>_<name>` cache; on a
miss, query the store through `request` (so the token is checked), and cache
the id when a file is found.  Returns the found file id (the source returns
`{id, name}` or `null`). -/
def findFile (token : Option String) (st : CacheState)
    (parentId name : String) (remote : Except String (Option String)) :
    DRes (Option String) :=
  let cacheKey := "fileId_" ++ parentId ++ "_" ++ name
  match alget st.fileIds cacheKey with
  | some fid => (.ok (some fid), st, 0)
  | none =>
    match token with
    | none => (.error "Not authenticated", st, 0)
    | some _ =>
      match remote with
      | .error e => (.error e, st, 1)
      | .ok none => (.ok none, st, 1)
      | .ok (some fid) =>
        (.ok (some fid),
         { st with fileIds := alset st.fileIds cacheKey fid }, 1)

/-- `DriveClient.getSessionsFolderId`: consult the
`sessionsFolderId_<appId>` cache; on a miss, look up the `sessions` folder via
`findFile`, creating it through `request` when absent, and cache the id. -/
def getSessionsFolderId (token : Option String) (st : CacheState)
    (appId : String) (remoteFind : Except String (Option String))
    (remoteCreate : Except String String) : DRes String :=
  let cacheKey := "sessionsFolderId_" ++ appId
  match alget st.sessionsFolderIds cacheKey with
  | some fid => (.ok fid, st, 0)
  | none =>
    match findFile token st appId "sessions" remoteFind with
    | (.error e, st1, n) => (.error e, st1, n)
    | (.ok (some fid), st1, n) =>
      (.ok fid,
       { st1 with sessionsFolderIds := alset st1.sessionsFolderIds cacheKey fid },
       n)
    | (.ok none, st1, n) =>
      -- create the folder through `request`
      match token with
      | none => (.error "Not authenticated", st1, n)
      | some _ =>
        match remoteCreate with
        | .error e => (.error e, st1, n + 1)
        | .ok nfid =>
          (.ok nfid,
           { st1 with
               sessionsFolderIds := alset st1.sessionsFolderIds cacheKey nfid },
           n + 1)

/-- The JS return value of `getSession`, `{...<spread base>, syncTime}`:
the fields spread into the result plus the added `syncTime` field
(`none` models `syncTime: undefined`). -/
structure SessResult where
  record : JVal
  syncTime : Option Nat
deriving DecidableEq

/-- How `getSession` reads a cached entry:
`{ ...cached.data, syncTime: cached.syncTime }`.  For a `wrapped` entry this
spreads the saved record and attaches the stored stamp; for a `raw` entry
(written only by `createSession`) `cached.data` is the record's `data` field
(the session's empty initial data) and `cached.syncTime` is `undefined`. -/
def readCached : SessCacheVal → SessResult
  | .wrapped d t => ⟨.obj (jsSpreadObj d), some t⟩
  | .raw r => ⟨.obj (jsSpreadObj (jget r "data")), none⟩

/-- `DriveClient.getSession(sessionId, forceRefresh)`: serve
`session_<sessionId>` from the cache unless forced; otherwise fetch the file
content (`getFileContent` issues the request without a token check), parse it
(`remote` is the fetched-and-parsed outcome; fetch or parse failure is the
error case), cache `{data, syncTime}` and return `{...data, syncTime}`. -/
def getSession (token : Option String) (st : CacheState) (sessionId : String)
    (forceRefresh : Bool) (remote : Except String JVal) (now : Nat) :
    DRes SessResult :=
  let cacheKey := "session_" ++ sessionId
  let hit : Option SessCacheVal :=
    if forceRefresh then none else alget st.sessions cacheKey
  match hit with
  | some cached => (.ok (readCached cached), st, 0)
  | none =>
    match remote with
    | .error e => (.error e, st, 1)
    | .ok data =>
      (.ok ⟨.obj (jsSpreadObj data), some now⟩,
       { st with sessions := alset st.sessions cacheKey (.wrapped data now) },
       1)

/-- `DriveClient.saveSession(sessionId, data)`: remote `updateFile` first; the
cache entry `{data, syncTime: Date.now()}` is written only after it returns
ok (an exception propagates before the cache write). -/
def saveSession (token : Option String) (st : CacheState) (sessionId : String)
    (data : JVal) (remote : Option String) (now : Nat) : DRes String :=
  match updateFile token sessionId remote with
  | (.error e, n) => (.error e, st, n)
  | (.ok r, n) =>
    (.ok r,
     { st with
         sessions := alset st.sessions ("session_" ++ sessionId)
           (.wrapped data now) },
     n)

/-- The JS return value of `createSession`: `{id, name, data: sessionData}`. -/
structure CreatedSession where
  id : String
  name : String
  data : JVal
deriving DecidableEq

/-- `DriveClient.createSession(appId, name)`: resolve the sessions folder,
create `<name>.json` with the initial record
`{name, createdAt, data: {}}`, then cache that raw record under
`session_<fileId>` (note: not in the `{data, syncTime}` shape `getSession`
reads) and drop the `sessions_<appId>` list entry.  `createdAt` models
`new Date().toISOString()`. -/
def createSession (token : Option String) (st : CacheState)
    (appId name createdAt : String)
    (remoteFolderFind : Except String (Option String))
    (remoteFolderCreate : Except String String)
    (remoteCreateFile : Option String) : DRes CreatedSession :=
  match getSessionsFolderId token st appId remoteFolderFind remoteFolderCreate with
  | (.error e, st1, n) => (.error e, st1, n)
  | (.ok folderId, st1, n) =>
    let sessionData : JVal :=
      .obj [("name", .str name), ("createdAt", .str createdAt),
            ("data", .obj [])]
    match createFile token folderId (name ++ ".json") remoteCreateFile with
    | (.error e, n2) => (.error e, st1, n + n2)
    | (.ok fileId, n2) =>
      (.ok ⟨fileId, name, sessionData⟩,
       { st1 with
           sessions := alset st1.sessions ("session_" ++ fileId)
             (.raw sessionData),
           sessionLists := aldel st1.sessionLists ("sessions_" ++ appId) },
       n + n2)

/-- `DriveClient.deleteApp(appId)`: delete the `appFiles_<appId>`,
`sessionsFolderId_<appId>`, `sessions_<appId>` and the three
`fileId_<appId>_*` entries (note: neither the LRU app-files table nor any
`session_<id>` entry is touched), then mark the remote folder trashed through
`request`.  The cache deletions happen before the request. -/
def deleteApp (token : Option String) (st : CacheState) (appId : String)
    (remote : Except String JVal) : DRes JVal :=
  let st1 : CacheState :=
    { st with
        appFiles := aldel st.appFiles ("appFiles_" ++ appId),
        sessionsFolderIds :=
          aldel st.sessionsFolderIds ("sessionsFolderId_" ++ appId),
        sessionLists := aldel st.sessionLists ("sessions_" ++ appId),
        fileIds :=
          aldel (aldel (aldel st.fileIds ("fileId_" ++ appId ++ "_manifest.json"))
              ("fileId_" ++ appId ++ "_app.html"))
            ("fileId_" ++ appId ++ "_params.json") }
  match request token remote with
  | (.error e, n) => (.error e, st1, n)
  | (.ok v, n) => (.ok v, st1, n)

/-- The JS return value of `getAppFiles`:
`{manifest, params, appHtml, syncTime}` (`none` models `null`). -/
structure AppFilesResult where
  manifest : Option JVal
  params : Option JVal
  appHtml : Option String
  syncTime : Nat
deriving DecidableEq

/-- One `findFile(...).then(f => f ? getFileContent(f.id) : null)` chain of
`getAppFiles`, with the content parsed (`rCont` folds fetch + `JSON.parse`). -/
def fetchChainJson (token : Option String) (st : CacheState)
    (parentId fname : String) (rFind : Except String (Option String))
    (rCont : Except String JVal) : DRes (Option JVal) :=
  match findFile token st parentId fname rFind with
  | (.error e, st1, n) => (.error e, st1, n)
  | (.ok none, st1, n) => (.ok none, st1, n)
  | (.ok (some _fid), st1, n) =>
    match rCont with
    | .error e => (.error e, st1, n + 1)
    | .ok v => (.ok (some v), st1, n + 1)

/-- Same chain for `app.html`, whose content is kept as raw text. -/
def fetchChainText (token : Option String) (st : CacheState)
    (parentId fname : String) (rFind : Except String (Option String))
    (rCont : Option String) : DRes (Option String) :=
  match findFile token st parentId fname rFind with
  | (.error e, st1, n) => (.error e, st1, n)
  | (.ok none, st1, n) => (.ok none, st1, n)
  | (.ok (some fid), st1, n) =>
    match getFileContent token fid rCont with
    | (.error e, n2) => (.error e, st1, n + n2)
    | (.ok s, n2) => (.ok (some s), st1, n + n2)

/-- `DriveClient.getAppFiles(appId, forceRefresh)`: serve the LRU table entry
unless forced (a hit reports `cachedAt` as `syncTime`); otherwise run the
three fetch chains (`Promise.all` is determinized in program order — the
chains write to distinct `fileId_` keys, so any interleaving yields this
state on success), store the result through `setAppCache` and return it. -/
def getAppFiles (token : Option String) (st : CacheState) (appId : String)
    (forceRefresh : Bool)
    (rFindManifest : Except String (Option String))
    (rContManifest : Except String JVal)
    (rFindParams : Except String (Option String))
    (rContParams : Except String JVal)
    (rFindHtml : Except String (Option String))
    (rContHtml : Option String) (now : Nat) : DRes AppFilesResult :=
  let hit : Option AppEntry :=
    if forceRefresh then none else getAppFromCache st appId
  match hit with
  | some cached =>
    (.ok ⟨cached.payload.manifest, cached.payload.params,
          cached.payload.appHtml, cached.cachedAt⟩, st, 0)
  | none =>
    match fetchChainJson token st appId "manifest.json" rFindManifest
        rContManifest with
    | (.error e, st1, n) => (.error e, st1, n)
    | (.ok m, st1, n) =>
      match fetchChainJson token st1 appId "params.json" rFindParams
          rContParams with
      | (.error e, st2, n2) => (.error e, st2, n + n2)
      | (.ok p, st2, n2) =>
        match fetchChainText token st2 appId "app.html" rFindHtml rContHtml with
        | (.error e, st3, n3) => (.error e, st3, n + n2 + n3)
        | (.ok h, st3, n3) =>
          let payload : AppPayload := ⟨m, p, h, now⟩
          (.ok ⟨m, p, h, now⟩,
           { st3 with
               appTable := setAppCacheTable st3.appTable appId payload now },
           n + n2 + n3)

/-- `DriveClient.saveAppHtml(appId, content)`: find the `app.html` file id,
write the content remotely (`updateFile`, or `createFile` when absent), and
only then — when a LRU-table entry for the app exists — refresh it with
`setAppCache(appId, {...cached, appHtml: content})`. -/
def saveAppHtml (token : Option String) (st : CacheState)
    (appId content : String) (remoteFind : Except String (Option String))
    (remoteWrite : Option String) (now : Nat) : DRes String :=
  match findFile token st appId "app.html" remoteFind with
  | (.error e, st1, n) => (.error e, st1, n)
  | (.ok fileOpt, st1, n) =>
    let write : Except String String × Nat :=
      match fileOpt with
      | some fid => updateFile token fid remoteWrite
      | none => createFile token appId "app.html" remoteWrite
    match write with
    | (.error e, n2) => (.error e, st1, n + n2)
    | (.ok r, n2) =>
      match getAppFromCache st1 appId with
      | some cached =>
        (.ok r,
         { st1 with
             appTable := setAppCacheTable st1.appTable appId
               { cached.payload with appHtml := some content } now },
         n + n2)
      | none => (.ok r, st1, n + n2)

/-- `DriveClient.saveManifest(appId, manifest)`: "No caching - just save to
Drive" — find the file id and write remotely; the app cache is never
touched.  (`manifest` is serialized to the wire only.) -/
def saveManifest (token : Option String) (st : CacheState) (appId : String)
    (manifest : JVal) (remoteFind : Except String (Option String))
    (remoteWrite : Option String) : DRes String :=
  match findFile token st appId "manifest.json" remoteFind with
  | (.error e, st1, n) => (.error e, st1, n)
  | (.ok fileOpt, st1, n) =>
    let write : Except String String × Nat :=
      match fileOpt with
      | some fid => updateFile token fid remoteWrite
      | none => createFile token appId "manifest.json" remoteWrite
    match write with
    | (.error e, n2) => (.error e, st1, n + n2)
    | (.ok r, n2) => (.ok r, st1, n + n2)

/-- `DriveClient.saveParams(appId, params)`: same shape as `saveManifest`;
the app cache is never touched. -/
def saveParams (token : Option String) (st : CacheState) (appId : String)
    (params : JVal) (remoteFind : Except String (Option String))
    (remoteWrite : Option String) : DRes String :=
  match findFile token st appId "params.json" remoteFind with
  | (.error e, st1, n) => (.error e, st1, n)
  | (.ok fileOpt, st1, n) =>
    let write : Except String String × Nat :=
      match fileOpt with
      | some fid => updateFile token fid remoteWrite
      | none => createFile token appId "params.json" remoteWrite
    match write with
    | (.error e, n2) => (.error e, st1, n + n2)
    | (.ok r, n2) => (.ok r, st1, n + n2)

end DriveClient

namespace AppRunner

/-- The host's in-memory view of the current session (`this.currentSession`,
set by `loadSession`/`createSession` as `{id, ...record}`; fields other than
`id` may be `undefined` because of the spread, hence `JVal`). -/
structure SessionSt where
  id : String
  name : JVal
  createdAt : JVal
  data : JVal
deriving DecidableEq

/-- The `AppRunner` fields the message protocol reads and writes.  `iframe`
is the identity of the guest execution context the host created
(`this.iframe.contentWindow`); `none` models a missing iframe (not rendered,
or no contentWindow). -/
structure RunnerState where
  iframe : Option Nat
  manifest : JVal
  params : JVal
  currentSession : Option SessionSt
deriving DecidableEq

/-- An inbound `message` event: the identity of the sending execution
context (`event.source`) and its payload.  `other` covers every
`event.data` whose `type` is neither `'ready'` nor `'update-session'`
(including a missing or non-object `event.data`, which the source guards
with `event.data || {}` before destructuring). -/
inductive InMsg where
  | ready
  | updateSession (data : JVal)
  | other
deriving DecidableEq

structure MsgEvent where
  source : Nat
  payload : InMsg
deriving DecidableEq

/-- A protocol message posted to the guest. -/
inductive OutMsg where
  | init (manifest params session : JVal)
  | sessionSaved (success : Bool) (error : Option String)
deriving DecidableEq

/-- A remote save attempted by `saveCurrentSession`: the document id and the
record `{name, createdAt, data}` passed to `driveClient.saveSession`. -/
structure SaveReq where
  sessionId : String
  name : JVal
  createdAt : JVal
  data : JVal
deriving DecidableEq

/-- `session: this.currentSession?.data || {}` in `sendInitToIframe`. -/
def sessionPayload (st : RunnerState) : JVal :=
  match st.currentSession with
  | none => .obj []
  | some s => jsOr s.data (.obj [])

/-- `AppRunner.sendInitToIframe`: nothing is posted without a guest context;
otherwise one `init` message built from the state current at the call. -/
def sendInitToIframe (st : RunnerState) : List OutMsg :=
  match st.iframe with
  | none => []
  | some _ => [.init st.manifest st.params (sessionPayload st)]

/-- `AppRunner.sendMessageToIframe`. -/
def sendMessageToIframe (st : RunnerState) (m : OutMsg) : List OutMsg :=
  match st.iframe with
  | none => []
  | some _ => [m]

/-- `AppRunner.handleSessionUpdate` followed by the `saveCurrentSession` it
triggers.  `saveOutcome` is the eventual result of the awaited
`driveClient.saveSession` call (`ok`/thrown message); it is consumed only
when a save is actually attempted.  Returns (new state, posted messages,
attempted saves). -/
def handleSessionUpdate (st : RunnerState) (data : JVal)
    (saveOutcome : Except String Unit) :
    RunnerState × List OutMsg × List SaveReq :=
  match st.currentSession with
  | none => (st, [], [])
  | some s =>
    let s2 : SessionSt := { s with data := data }
    let st2 : RunnerState := { st with currentSession := some s2 }
    let req : SaveReq := ⟨s2.id, s2.name, s2.createdAt, s2.data⟩
    match saveOutcome with
    | .ok _ => (st2, sendMessageToIframe st2 (.sessionSaved true none), [req])
    | .error e =>
      (st2, sendMessageToIframe st2 (.sessionSaved false (some e)), [req])

/-- `AppRunner.handleMessage`: drop the event unless it comes from the exact
guest context the host created
(`!this.iframe || event.source !== this.iframe.contentWindow`); then
dispatch on `type` (`'ready'` → `sendInitToIframe`, `'update-session'` →
`handleSessionUpdate`, anything else → nothing). -/
def handleMessage (st : RunnerState) (ev : MsgEvent)
    (saveOutcome : Except String Unit) :
    RunnerState × List OutMsg × List SaveReq :=
  match st.iframe with
  | none => (st, [], [])
  | some c =>
    if ev.source = c then
      match ev.payload with
      | .ready => (st, sendInitToIframe st, [])
      | .updateSession d => handleSessionUpdate st d saveOutcome
      | .other => (st, [], [])
    else
      (st, [], [])

end AppRunner

/-! ### Association-list lemmas -/

theorem alget_cons {V : Type} (a : String) (b : V) (tl : List (String × V))
    (k : String) :
    alget ((a, b) :: tl) k = if a == k then some b else alget tl k := by
  by_cases h : a == k <;> simp [alget, List.find?_cons, h]

theorem alget_any {V : Type} {m : List (String × V)} {k : String} {e : V}
    (h : alget m k = some e) : m.any (fun p => p.1 == k) = true := by
  induction m with
  | nil => simp [alget] at h
  | cons hd tl ih =>
    obtain ⟨a, b⟩ := hd
    rw [alget_cons] at h
    by_cases hk : a == k
    · simp [hk]
    · rw [if_neg hk] at h
      simp [hk, ih h]

theorem alget_map_replace {V : Type} {m : List (String × V)} {k : String}
    (v : V) (h : m.any (fun p => p.1 == k) = true) :
    alget (m.map (fun p => if p.1 == k then (k, v) else p)) k = some v := by
  induction m with
  | nil => simp at h
  | cons hd tl ih =>
    obtain ⟨a, b⟩ := hd
    by_cases hk : a == k
    · simp only [List.map_cons, if_pos hk]
      rw [alget_cons, if_pos (by simp)]
    · simp only [List.map_cons, if_neg hk]
      rw [alget_cons, if_neg hk]
      simp only [List.any_cons, hk, Bool.false_or] at h
      exact ih h

theorem alget_append_last {V : Type} {m : List (String × V)} {k : String}
    (v : V) (h : m.any (fun p => p.1 == k) = false) :
    alget (m ++ [(k, v)]) k = some v := by
  induction m with
  | nil => rw [List.nil_append, alget_cons, if_pos (by simp)]
  | cons hd tl ih =>
    obtain ⟨a, b⟩ := hd
    simp only [List.any_cons, Bool.or_eq_false_iff] at h
    rw [List.cons_append, alget_cons, if_neg (by simp [h.1])]
    exact ih h.2

theorem alget_alset_self {V : Type} (m : List (String × V)) (k : String)
    (v : V) : alget (alset m k v) k = some v := by
  unfold alset
  by_cases hany : m.any (fun p => p.1 == k) = true
  · rw [if_pos hany]
    exact alget_map_replace v hany
  · rw [if_neg hany]
    exact alget_append_last v (Bool.not_eq_true _ ▸ hany)

theorem alset_length_of_any {V : Type} {m : List (String × V)} {k : String}
    (v : V) (h : m.any (fun p => p.1 == k) = true) :
    (alset m k v).length = m.length := by
  unfold alset
  rw [if_pos h, List.length_map]

theorem nodup_keys_alset {V : Type} (m : List (String × V)) (k : String)
    (v : V) (h : (m.map Prod.fst).Nodup) :
    ((alset m k v).map Prod.fst).Nodup := by
  unfold alset
  by_cases hany : m.any (fun p => p.1 == k) = true
  · rw [if_pos hany]
    have hmap : (m.map (fun p => if p.1 == k then (k, v) else p)).map Prod.fst
        = m.map Prod.fst := by
      rw [List.map_map]
      refine List.map_congr_left ?_
      intro p _hp
      by_cases hk : p.1 == k
      · simp only [Function.comp_apply, if_pos hk]
        exact (eq_of_beq hk).symm
      · simp only [Function.comp_apply, if_neg hk]
    rw [hmap]
    exact h
  · rw [if_neg hany, List.map_append]
    have hnot : k ∉ m.map Prod.fst := by
      intro hmem
      obtain ⟨p, hp, hpk⟩ := List.mem_map.mp hmem
      exact hany (List.any_eq_true.mpr ⟨p, hp, by simp [hpk]⟩)
    simp [List.nodup_append, h, hnot]

theorem mem_eq_of_nodup_keys {V : Type} {l : List (String × V)}
    (h : (l.map Prod.fst).Nodup) {p q : String × V}
    (hp : p ∈ l) (hq : q ∈ l) (hk : p.1 = q.1) : p = q := by
  induction l with
  | nil => cases hp
  | cons hd tl ih =>
    rw [List.map_cons, List.nodup_cons] at h
    rcases List.mem_cons.mp hp with hp1 | hp1 <;>
      rcases List.mem_cons.mp hq with hq1 | hq1
    · rw [hp1, hq1]
    · exfalso
      apply h.1
      rw [← hp1, hk]
      exact List.mem_map_of_mem Prod.fst hq1
    · exfalso
      apply h.1
      rw [← hq1, ← hk]
      exact List.mem_map_of_mem Prod.fst hp1
    · exact ih h.2 hp1 hq1

/-! ### LRU eviction (`setAppCache`) -/

namespace DriveClient

/-- Unfolding `setAppCacheTable` to its branches. -/
theorem setAppCacheTable_eq (table : List (String × AppEntry)) (appId : String)
    (data : AppPayload) (now : Nat) :
    setAppCacheTable table appId data now =
      if (alset table appId ⟨data, now⟩).length > APP_CACHE_MAX then
        (alset table appId ⟨data, now⟩).filter
          (fun p =>
            !(((List.insertionSort entLE (alset table appId ⟨data, now⟩)).take
                ((alset table appId ⟨data, now⟩).length - APP_CACHE_MAX)).any
              (fun q => q.1 == p.1)))
      else alset table appId ⟨data, now⟩ := rfl

/-- Filtering a key-deduplicated list by "not among the first `k` of its
stable sort" keeps, up to the sort's permutation, exactly the entries beyond
the first `k` of the sort. -/
theorem sorted_filter_evict (cache : List (String × AppEntry)) (k : Nat)
    (hnd : (cache.map Prod.fst).Nodup) :
    (List.insertionSort entLE cache).filter
        (fun p =>
          !(((List.insertionSort entLE cache).take k).any
            (fun q => q.1 == p.1)))
      = (List.insertionSort entLE cache).drop k := by
  set sorted := List.insertionSort entLE cache with hs
  have hperm : List.Perm sorted cache := List.perm_insertionSort _ _
  have hndk : (sorted.map Prod.fst).Nodup :=
    (List.Perm.nodup_iff (List.Perm.map Prod.fst hperm)).mpr hnd
  have hndl : sorted.Nodup := hndk.of_map
  have hdisj : List.Disjoint (sorted.take k) (sorted.drop k) := by
    have h := hndl
    rw [← List.take_append_drop k sorted] at h
    exact (List.nodup_append.mp h).2.2
  have key : ∀ pr : (String × AppEntry) → Bool,
      (sorted.take k).filter pr = [] →
      (sorted.drop k).filter pr = sorted.drop k →
      sorted.filter pr = sorted.drop k := by
    intro pr hp1 hp2
    conv_lhs => rw [← List.take_append_drop k sorted]
    rw [List.filter_append, hp1, hp2, List.nil_append]
  have h1 : (sorted.take k).filter
      (fun p => !((sorted.take k).any (fun q => q.1 == p.1))) = [] := by
    refine List.filter_eq_nil_iff.mpr ?_
    intro p hp
    have : ((sorted.take k).any (fun q => q.1 == p.1)) = true :=
      List.any_eq_true.mpr ⟨p, hp, by simp⟩
    simp [this]
  have h2 : (sorted.drop k).filter
      (fun p => !((sorted.take k).any (fun q => q.1 == p.1))) =
      sorted.drop k := by
    refine List.filter_eq_self.mpr ?_
    intro p hp
    cases hany : ((sorted.take k).any (fun q => q.1 == p.1)) with
    | false => simp [hany]
    | true =>
      exfalso
      obtain ⟨q, hq, hqk⟩ := List.any_eq_true.mp hany
      have hqp : q = p :=
        mem_eq_of_nodup_keys hndk (List.take_subset k sorted hq)
          (List.drop_subset k sorted hp) (eq_of_beq hqk)
      rw [hqp] at hq
      exact hdisj hq hp
  exact key _ h1 h2

/-- C2 helper: after eviction the surviving entries are, up to order, the
entries beyond the first `k` of the stable sort by `cachedAt`. -/
theorem evict_perm_drop (cache : List (String × AppEntry)) (k : Nat)
    (hnd : (cache.map Prod.fst).Nodup) :
    List.Perm
      (cache.filter
        (fun p =>
          !(((List.insertionSort entLE cache).take k).any
            (fun q => q.1 == p.1))))
      ((List.insertionSort entLE cache).drop k) := by
  have hperm : List.Perm (List.insertionSort entLE cache) cache :=
    List.perm_insertionSort _ _
  have h1 := (List.Perm.filter
    (fun p =>
      !(((List.insertionSort entLE cache).take k).any
        (fun q => q.1 == p.1))) hperm).symm
  rw [sorted_filter_evict cache k hnd] at h1
  exact h1

end DriveClient

/-- C2: for every LRU-table state (JS object keys are necessarily distinct)
and every `setAppCache(appId, data)` insertion, the resulting table holds
`min (size after insert) APP_CACHE_MAX` entries — so never more than `N = 4` —
every surviving entry was present after the insert, and every evicted entry's
`cachedAt` is at most every surviving entry's `cachedAt`: together with the
count this makes the evicted entries exactly the least-recently-cached ones
(uniquely so whenever the `cachedAt` stamps are distinct, e.g. strictly
increasing insertion timestamps). -/
theorem c2_setAppCache_lru (table : List (String × DriveClient.AppEntry))
    (appId : String) (data : DriveClient.AppPayload) (now : Nat)
    (hnd : (table.map Prod.fst).Nodup) :
    (DriveClient.setAppCacheTable table appId data now).length =
        min (alset table appId ⟨data, now⟩).length DriveClient.APP_CACHE_MAX ∧
    (∀ q ∈ DriveClient.setAppCacheTable table appId data now,
        q ∈ alset table appId ⟨data, now⟩) ∧
    (∀ p ∈ alset table appId ⟨data, now⟩,
        p ∉ DriveClient.setAppCacheTable table appId data now →
        ∀ q ∈ DriveClient.setAppCacheTable table appId data now,
          p.2.cachedAt ≤ q.2.cachedAt) := by
  have hndc : ((alset table appId ⟨data, now⟩).map Prod.fst).Nodup :=
    nodup_keys_alset _ _ _ hnd
  rw [DriveClient.setAppCacheTable_eq]
  set cache := alset table appId ⟨data, now⟩ with hc
  by_cases hlen : cache.length > DriveClient.APP_CACHE_MAX
  · rw [if_pos hlen]
    set k := cache.length - DriveClient.APP_CACHE_MAX with hk
    have hpermd := DriveClient.evict_perm_drop cache k hndc
    refine ⟨?_, ?_, ?_⟩
    · rw [hpermd.length_eq, List.length_drop, List.length_insertionSort]
      simp only [DriveClient.APP_CACHE_MAX] at hlen hk ⊢
      omega
    · intro q hq
      exact (List.mem_filter.mp hq).1
    · intro p hp hpn q hq
      have hsorted :
          List.Sorted DriveClient.entLE
            (List.insertionSort DriveClient.entLE cache) :=
        List.sorted_insertionSort _ _
      have hperm :
          List.Perm (List.insertionSort DriveClient.entLE cache) cache :=
        List.perm_insertionSort _ _
      have hndk :
          ((List.insertionSort DriveClient.entLE cache).map Prod.fst).Nodup :=
        (List.Perm.nodup_iff (List.Perm.map Prod.fst hperm)).mpr hndc
      have hanyp :
          (((List.insertionSort DriveClient.entLE cache).take k).any
            (fun q => q.1 == p.1)) = true := by
        by_contra hfalse
        have hv :
            (!(((List.insertionSort DriveClient.entLE cache).take k).any
              (fun q => q.1 == p.1))) = true := by
          simp only [Bool.not_eq_true] at hfalse
          simp [hfalse]
        exact hpn (List.mem_filter.mpr ⟨hp, hv⟩)
      obtain ⟨pq, hpq, hpqk⟩ := List.any_eq_true.mp hanyp
      have hpqeq : pq = p :=
        mem_eq_of_nodup_keys hndk (List.take_subset k _ hpq)
          (hperm.mem_iff.mpr hp) (eq_of_beq hpqk)
      rw [hpqeq] at hpq
      have hqdrop : q ∈ (List.insertionSort DriveClient.entLE cache).drop k :=
        hpermd.mem_iff.mp hq
      exact hsorted.rel_of_mem_take_of_mem_drop hpq hqdrop
  · rw [if_neg hlen]
    refine ⟨?_, fun q hq => hq, fun p hp hpn q _hq => absurd hp hpn⟩
    simp only [DriveClient.APP_CACHE_MAX] at hlen ⊢
    omega

/-- Witness for C2 at the spec's own example: capacity 4, ids A,B,C,D cached
at t = 1..4, inserting E at t = 5 evicts exactly A. -/
theorem c2_setAppCache_lru_witness :
    (([("A", (⟨⟨none, none, none, 1⟩, 1⟩ : DriveClient.AppEntry)),
       ("B", ⟨⟨none, none, none, 2⟩, 2⟩),
       ("C", ⟨⟨none, none, none, 3⟩, 3⟩),
       ("D", ⟨⟨none, none, none, 4⟩, 4⟩)].map Prod.fst).Nodup) ∧
    ((DriveClient.setAppCacheTable
        [("A", (⟨⟨none, none, none, 1⟩, 1⟩ : DriveClient.AppEntry)),
         ("B", ⟨⟨none, none, none, 2⟩, 2⟩),
         ("C", ⟨⟨none, none, none, 3⟩, 3⟩),
         ("D", ⟨⟨none, none, none, 4⟩, 4⟩)] "E" ⟨none, none, none, 5⟩ 5).length =
      min
        (alset
          [("A", (⟨⟨none, none, none, 1⟩, 1⟩ : DriveClient.AppEntry)),
           ("B", ⟨⟨none, none, none, 2⟩, 2⟩),
           ("C", ⟨⟨none, none, none, 3⟩, 3⟩),
           ("D", ⟨⟨none, none, none, 4⟩, 4⟩)] "E"
          ⟨⟨none, none, none, 5⟩, 5⟩).length
        DriveClient.APP_CACHE_MAX ∧
      (∀ q ∈ DriveClient.setAppCacheTable
          [("A", (⟨⟨none, none, none, 1⟩, 1⟩ : DriveClient.AppEntry)),
           ("B", ⟨⟨none, none, none, 2⟩, 2⟩),
           ("C", ⟨⟨none, none, none, 3⟩, 3⟩),
           ("D", ⟨⟨none, none, none, 4⟩, 4⟩)] "E" ⟨none, none, none, 5⟩ 5,
        q ∈ alset
          [("A", (⟨⟨none, none, none, 1⟩, 1⟩ : DriveClient.AppEntry)),
           ("B", ⟨⟨none, none, none, 2⟩, 2⟩),
           ("C", ⟨⟨none, none, none, 3⟩, 3⟩),
           ("D", ⟨⟨none, none, none, 4⟩, 4⟩)] "E" ⟨⟨none, none, none, 5⟩, 5⟩) ∧
      (∀ p ∈ alset
          [("A", (⟨⟨none, none, none, 1⟩, 1⟩ : DriveClient.AppEntry)),
           ("B", ⟨⟨none, none, none, 2⟩, 2⟩),
           ("C", ⟨⟨none, none, none, 3⟩, 3⟩),
           ("D", ⟨⟨none, none, none, 4⟩, 4⟩)] "E" ⟨⟨none, none, none, 5⟩, 5⟩,
        p ∉ DriveClient.setAppCacheTable
          [("A", (⟨⟨none, none, none, 1⟩, 1⟩ : DriveClient.AppEntry)),
           ("B", ⟨⟨none, none, none, 2⟩, 2⟩),
           ("C", ⟨⟨none, none, none, 3⟩, 3⟩),
           ("D", ⟨⟨none, none, none, 4⟩, 4⟩)] "E" ⟨none, none, none, 5⟩ 5 →
        ∀ q ∈ DriveClient.setAppCacheTable
          [("A", (⟨⟨none, none, none, 1⟩, 1⟩ : DriveClient.AppEntry)),
           ("B", ⟨⟨none, none, none, 2⟩, 2⟩),
           ("C", ⟨⟨none, none, none, 3⟩, 3⟩),
           ("D", ⟨⟨none, none, none, 4⟩, 4⟩)] "E" ⟨none, none, none, 5⟩ 5,
          p.2.cachedAt ≤ q.2.cachedAt)) ∧
    DriveClient.setAppCacheTable
        [("A", (⟨⟨none, none, none, 1⟩, 1⟩ : DriveClient.AppEntry)),
         ("B", ⟨⟨none, none, none, 2⟩, 2⟩),
         ("C", ⟨⟨none, none, none, 3⟩, 3⟩),
         ("D", ⟨⟨none, none, none, 4⟩, 4⟩)] "E" ⟨none, none, none, 5⟩ 5 =
      [("B", ⟨⟨none, none, none, 2⟩, 2⟩),
       ("C", ⟨⟨none, none, none, 3⟩, 3⟩),
       ("D", ⟨⟨none, none, none, 4⟩, 4⟩),
       ("E", ⟨⟨none, none, none, 5⟩, 5⟩)] :=
  ⟨by decide,
   c2_setAppCache_lru
     [("A", (⟨⟨none, none, none, 1⟩, 1⟩ : DriveClient.AppEntry)),
      ("B", ⟨⟨none, none, none, 2⟩, 2⟩),
      ("C", ⟨⟨none, none, none, 3⟩, 3⟩),
      ("D", ⟨⟨none, none, none, 4⟩, 4⟩)] "E" ⟨none, none, none, 5⟩ 5 (by decide),
   by decide⟩

/-- C3: read-your-writes — a successful `saveSession(id, v)` (the remote
update returned ok) followed by `getSession(id, forceRefresh = false)` returns
the record `v` with only the `syncTime` field added (here: the save's
timestamp), served from the cache with no remote fetch, and leaves the cache
as the save left it. -/
theorem c3_read_your_writes (token : Option String)
    (st : DriveClient.CacheState) (sessionId : String)
    (fs : List (String × JVal)) (r : String) (t now2 : Nat)
    (dummy : Except String JVal) :
    DriveClient.getSession token
        ((DriveClient.saveSession token st sessionId (.obj fs) (some r) t).2.1)
        sessionId false dummy now2 =
      (.ok ⟨.obj fs, some t⟩,
       (DriveClient.saveSession token st sessionId (.obj fs) (some r) t).2.1,
       0) := by
  simp [DriveClient.saveSession, DriveClient.updateFile, DriveClient.getSession,
    alget_alset_self, DriveClient.readCached, jsSpreadObj]

/-- `findFile` touches only the `fileId_` family: every other cache family is
returned unchanged, on success and on failure alike. -/
theorem findFile_state (token : Option String) (st : DriveClient.CacheState)
    (parentId name : String) (remote : Except String (Option String)) :
    ((DriveClient.findFile token st parentId name remote).2.1).appTable =
        st.appTable ∧
    ((DriveClient.findFile token st parentId name remote).2.1).sessions =
        st.sessions ∧
    ((DriveClient.findFile token st parentId name remote).2.1).sessionLists =
        st.sessionLists ∧
    ((DriveClient.findFile token st parentId name
        remote).2.1).sessionsFolderIds = st.sessionsFolderIds ∧
    ((DriveClient.findFile token st parentId name remote).2.1).appFiles =
        st.appFiles := by
  unfold DriveClient.findFile
  cases halget : alget st.fileIds ("fileId_" ++ parentId ++ "_" ++ name) with
  | some fid => simp [halget]
  | none =>
    cases token with
    | none => simp [halget]
    | some tk =>
      cases remote with
      | error e => simp [halget]
      | ok o => cases o <;> simp [halget]

/-- C4 counterexample to "the cache state is exactly what it was before the
call" on a failed remote write: starting from the empty cache, `saveAppHtml`
whose remote file lookup succeeds but whose remote content write fails throws
— yet the cache differs from before the call, because `findFile` cached the
looked-up file id before the write failed. -/
theorem c4_counterexample :
    (DriveClient.saveAppHtml (some "tk") ⟨[], [], [], [], [], []⟩ "A" "h1"
        (.ok (some "F1")) none 7).2.1 ≠
      (⟨[], [], [], [], [], []⟩ : DriveClient.CacheState) ∧
    (DriveClient.saveAppHtml (some "tk") ⟨[], [], [], [], [], []⟩ "A" "h1"
        (.ok (some "F1")) none 7).1 = .error "Failed to update file" ∧
    ((DriveClient.saveAppHtml (some "tk") ⟨[], [], [], [], [], []⟩ "A" "h1"
        (.ok (some "F1")) none 7).2.1).fileIds =
      [("fileId_A_app.html", "F1")] := by
  decide

/-- C4 amended: the remote store is written first and the *document* caches
are updated only on remote success.  A failed remote write leaves `saveSession`
with the cache exactly as before (and the error propagated), and leaves
`saveAppHtml` with the app-bundle LRU table and the session cache exactly as
before (the incidental `fileId_` lookup cache may have gained an entry from
the preceding `findFile`, as the counterexample shows). -/
theorem c4_save_failure_keeps_doc_caches :
    (∀ (token : Option String) (st : DriveClient.CacheState)
        (sessionId : String) (data : JVal) (t : Nat),
        DriveClient.saveSession token st sessionId data none t =
          (.error "Failed to update file", st, 1)) ∧
    (∀ (token : Option String) (st : DriveClient.CacheState)
        (appId content : String) (rFind : Except String (Option String))
        (now : Nat),
        ((DriveClient.saveAppHtml token st appId content rFind none
            now).2.1).appTable = st.appTable ∧
        ((DriveClient.saveAppHtml token st appId content rFind none
            now).2.1).sessions = st.sessions ∧
        ∃ e, (DriveClient.saveAppHtml token st appId content rFind none
            now).1 = .error e) := by
  refine ⟨?_, ?_⟩
  · intro token st sessionId data t
    simp [DriveClient.saveSession, DriveClient.updateFile]
  · intro token st appId content rFind now
    have hpres := findFile_state token st appId "app.html" rFind
    unfold DriveClient.saveAppHtml
    rcases hff : DriveClient.findFile token st appId "app.html" rFind with
      ⟨exc, st1, n⟩
    rw [hff] at hpres
    cases exc with
    | error e => exact ⟨hpres.1, hpres.2.1, e, rfl⟩
    | ok fileOpt =>
      cases fileOpt with
      | some fid => exact ⟨hpres.1, hpres.2.1, "Failed to update file", rfl⟩
      | none =>
        exact ⟨hpres.1, hpres.2.1, "Failed to create file: app.html", rfl⟩

/-- C5 counterexample: with no credential available, `createFile` still
issues its network request (one attempt, not zero) and fails with the
generic non-authentication error; `updateFile` and `getFileContent` behave
the same. -/
theorem c5_counterexample :
    (DriveClient.createFile none "A" "app.html" none).2 = 1 ∧
    (DriveClient.createFile none "A" "app.html" none).1 =
      .error "Failed to create file: app.html" ∧
    (DriveClient.updateFile none "F" none).2 = 1 ∧
    (DriveClient.getFileContent none "F" none).2 = 1 := by
  decide

/-- C5 amended: only operations routed through `DriveClient.request` (the
folder queries and metadata searches) fail fast with `'Not authenticated'`
and zero network attempts when no credential is available; `createFile`,
`updateFile` and `getFileContent` never check the credential and issue their
network request unconditionally. -/
theorem c5_auth_check_only_in_request :
    (∀ remote : Except String JVal,
        DriveClient.request none remote = (.error "Not authenticated", 0)) ∧
    (∀ (parentId name : String) (remote : Option String),
        (DriveClient.createFile none parentId name remote).2 = 1) ∧
    (∀ (fileId : String) (remote : Option String),
        (DriveClient.updateFile none fileId remote).2 = 1) ∧
    (∀ (fileId : String) (remote : Option String),
        (DriveClient.getFileContent none fileId remote).2 = 1) := by
  refine ⟨fun remote => rfl, fun p n r => ?_, fun f r => ?_, fun f r => ?_⟩ <;>
    cases r <;> rfl

/-- C6: `createSession` does seed the cache for the new id, but in the raw
record shape rather than the `{data, syncTime}` shape `getSession` reads, so
the subsequent `getSession(id, forceRefresh = false)` is indeed served from
the cache (zero fetches) yet returns `{syncTime: undefined}` — an empty
record without the created session's `name`, `createdAt` and `data` fields —
contradicting the claim's expected result. -/
theorem c6_createSession_cache_shape_bug :
    (DriveClient.createSession (some "tk")
        ⟨[], [], [("sessions_A", JVal.null)], [("sessionsFolderId_A", "SF")],
         [], []⟩ "A" "s1" "2024-01-01T00:00:00Z" (.error "unused")
        (.error "unused") (some "F1")).1 =
      .ok ⟨"F1", "s1",
        .obj [("name", .str "s1"),
              ("createdAt", .str "2024-01-01T00:00:00Z"),
              ("data", .obj [])]⟩ ∧
    (DriveClient.getSession (some "tk")
        ((DriveClient.createSession (some "tk")
            ⟨[], [], [("sessions_A", JVal.null)],
             [("sessionsFolderId_A", "SF")], [], []⟩ "A" "s1"
            "2024-01-01T00:00:00Z" (.error "unused") (.error "unused")
            (some "F1")).2.1)
        "F1" false (.error "no-fetch") 99).2.2 = 0 ∧
    (DriveClient.getSession (some "tk")
        ((DriveClient.createSession (some "tk")
            ⟨[], [], [("sessions_A", JVal.null)],
             [("sessionsFolderId_A", "SF")], [], []⟩ "A" "s1"
            "2024-01-01T00:00:00Z" (.error "unused") (.error "unused")
            (some "F1")).2.1)
        "F1" false (.error "no-fetch") 99).1 =
      .ok ⟨.obj [], none⟩ ∧
    (JVal.obj []) ≠
      .obj [("name", .str "s1"),
            ("createdAt", .str "2024-01-01T00:00:00Z"),
            ("data", .obj [])] := by
  decide

/-- C1: `deleteApp` succeeds remotely, yet a subsequent
`getAppFiles(appId, forceRefresh = false)` still returns the previously
cached `AppBundle` with zero remote fetches — `deleteApp` removes only the
legacy `appFiles_<appId>` key, never the LRU app-files table entry that
`getAppFiles` actually reads — and the cached `session_<id>` document entry
for the app's session also survives. -/
theorem c1_deleteApp_stale_cache :
    (DriveClient.deleteApp (some "tk")
        ⟨[("A", ⟨⟨some (.str "m0"), some (.str "p0"), some "h0", 10⟩, 10⟩)],
         [("session_S1", .wrapped (.str "d0") 5)],
         [("sessions_A", JVal.null)],
         [("sessionsFolderId_A", "SF")],
         [("fileId_A_app.html", "F1")],
         [("appFiles_A", JVal.null)]⟩ "A" (.ok .null)).1 = .ok .null ∧
    (DriveClient.getAppFiles (some "tk")
        ((DriveClient.deleteApp (some "tk")
            ⟨[("A", ⟨⟨some (.str "m0"), some (.str "p0"), some "h0", 10⟩, 10⟩)],
             [("session_S1", .wrapped (.str "d0") 5)],
             [("sessions_A", JVal.null)],
             [("sessionsFolderId_A", "SF")],
             [("fileId_A_app.html", "F1")],
             [("appFiles_A", JVal.null)]⟩ "A" (.ok .null)).2.1)
        "A" false (.error "unused") (.error "unused") (.error "unused")
        (.error "unused") (.error "unused") none 99).1 =
      .ok ⟨some (.str "m0"), some (.str "p0"), some "h0", 10⟩ ∧
    (DriveClient.getAppFiles (some "tk")
        ((DriveClient.deleteApp (some "tk")
            ⟨[("A", ⟨⟨some (.str "m0"), some (.str "p0"), some "h0", 10⟩, 10⟩)],
             [("session_S1", .wrapped (.str "d0") 5)],
             [("sessions_A", JVal.null)],
             [("sessionsFolderId_A", "SF")],
             [("fileId_A_app.html", "F1")],
             [("appFiles_A", JVal.null)]⟩ "A" (.ok .null)).2.1)
        "A" false (.error "unused") (.error "unused") (.error "unused")
        (.error "unused") (.error "unused") none 99).2.2 = 0 ∧
    ((DriveClient.deleteApp (some "tk")
        ⟨[("A", ⟨⟨some (.str "m0"), some (.str "p0"), some "h0", 10⟩, 10⟩)],
         [("session_S1", .wrapped (.str "d0") 5)],
         [("sessions_A", JVal.null)],
         [("sessionsFolderId_A", "SF")],
         [("fileId_A_app.html", "F1")],
         [("appFiles_A", JVal.null)]⟩ "A" (.ok .null)).2.1).sessions =
      [("session_S1", .wrapped (.str "d0") 5)] := by
  decide

/-- C7 counterexample: with the app's bundle cached (manifest `"m0"`) and the
manifest file id already known, a fully successful `saveManifest` with a new
manifest `"m1"` leaves the whole cache — in particular the cached bundle's
manifest — exactly as it was: the cache is *not* refreshed on a manifest
save. -/
theorem c7_counterexample :
    (DriveClient.saveManifest (some "tk")
        ⟨[("A", ⟨⟨some (.str "m0"), some (.str "p0"), some "h0", 10⟩, 10⟩)],
         [], [], [], [("fileId_A_manifest.json", "FM")], []⟩
        "A" (.str "m1") (.error "unused") (some "ok")).1 = .ok "ok" ∧
    (DriveClient.saveManifest (some "tk")
        ⟨[("A", ⟨⟨some (.str "m0"), some (.str "p0"), some "h0", 10⟩, 10⟩)],
         [], [], [], [("fileId_A_manifest.json", "FM")], []⟩
        "A" (.str "m1") (.error "unused") (some "ok")).2.1 =
      ⟨[("A", ⟨⟨some (.str "m0"), some (.str "p0"), some "h0", 10⟩, 10⟩)],
       [], [], [], [("fileId_A_manifest.json", "FM")], []⟩ ∧
    (JVal.str "m0") ≠ .str "m1" := by
  decide

/-- C7 helper: inserting under a key that is already present in a table
within capacity performs no eviction — `setAppCache` is a plain in-place
update whose new entry is then found by lookup. -/
theorem setAppCacheTable_update_small (table : List (String × DriveClient.AppEntry))
    (appId : String) (data : DriveClient.AppPayload) (now : Nat)
    (e : DriveClient.AppEntry) (he : alget table appId = some e)
    (hlen : table.length ≤ DriveClient.APP_CACHE_MAX) :
    alget (DriveClient.setAppCacheTable table appId data now) appId =
      some ⟨data, now⟩ := by
  have hany := alget_any he
  have hlen2 : (alset table appId (⟨data, now⟩ : DriveClient.AppEntry)).length
      = table.length := alset_length_of_any _ hany
  have hnot : ¬ ((alset table appId
      (⟨data, now⟩ : DriveClient.AppEntry)).length > DriveClient.APP_CACHE_MAX) := by
    omega
  rw [DriveClient.setAppCacheTable_eq, if_neg hnot]
  exact alget_alset_self _ _ _

/-- C7 amended: only `saveAppHtml` refreshes the cached `AppBundle` entry —
on a successful save with an entry present, the entry's `appHtml` becomes the
just-saved content (stamped at the save time); `saveManifest` and
`saveParams` never touch the app cache, so after those saves a cached entry
keeps its stale manifest/params. -/
theorem c7_only_saveAppHtml_refreshes_cache :
    (∀ (tok : String) (st : DriveClient.CacheState)
        (appId content fid r : String) (now : Nat) (e : DriveClient.AppEntry),
        alget st.appTable appId = some e →
        st.appTable.length ≤ DriveClient.APP_CACHE_MAX →
        (DriveClient.saveAppHtml (some tok) st appId content (.ok (some fid))
            (some r) now).1 = .ok r ∧
        alget ((DriveClient.saveAppHtml (some tok) st appId content
            (.ok (some fid)) (some r) now).2.1).appTable appId =
          some ⟨{ e.payload with appHtml := some content }, now⟩) ∧
    (∀ (token : Option String) (st : DriveClient.CacheState) (appId : String)
        (m : JVal) (rF : Except String (Option String)) (rW : Option String),
        ((DriveClient.saveManifest token st appId m rF rW).2.1).appTable =
          st.appTable) ∧
    (∀ (token : Option String) (st : DriveClient.CacheState) (appId : String)
        (p : JVal) (rF : Except String (Option String)) (rW : Option String),
        ((DriveClient.saveParams token st appId p rF rW).2.1).appTable =
          st.appTable) := by
  refine ⟨?_, ?_, ?_⟩
  · intro tok st appId content fid r now e he hlen
    have hupd := setAppCacheTable_update_small st.appTable appId
      { e.payload with appHtml := some content } now e he hlen
    unfold DriveClient.saveAppHtml DriveClient.findFile DriveClient.updateFile
    cases hfid : alget st.fileIds ("fileId_" ++ appId ++ "_" ++ "app.html") with
    | some f2 => simp [hfid, DriveClient.getAppFromCache, he, hupd]
    | none => simp [hfid, DriveClient.getAppFromCache, he, hupd]
  · intro token st appId m rF rW
    have hpres := findFile_state token st appId "manifest.json" rF
    unfold DriveClient.saveManifest
    rcases hff : DriveClient.findFile token st appId "manifest.json" rF with
      ⟨exc, st1, n⟩
    rw [hff] at hpres
    cases exc with
    | error e => exact hpres.1
    | ok fileOpt =>
      cases fileOpt with
      | some fid => cases rW with
        | some r => exact hpres.1
        | none => exact hpres.1
      | none => cases rW with
        | some r => exact hpres.1
        | none => exact hpres.1
  · intro token st appId p rF rW
    have hpres := findFile_state token st appId "params.json" rF
    unfold DriveClient.saveParams
    rcases hff : DriveClient.findFile token st appId "params.json" rF with
      ⟨exc, st1, n⟩
    rw [hff] at hpres
    cases exc with
    | error e => exact hpres.1
    | ok fileOpt =>
      cases fileOpt with
      | some fid => cases rW with
        | some r => exact hpres.1
        | none => exact hpres.1
      | none => cases rW with
        | some r => exact hpres.1
        | none => exact hpres.1

/-- Witness for the amended C7: a concrete cached bundle whose html is
refreshed in place by a successful `saveAppHtml`. -/
theorem c7_only_saveAppHtml_refreshes_cache_witness :
    (alget
        (⟨[("A", ⟨⟨some (.str "m0"), none, some "h0", 10⟩, 10⟩)],
          [], [], [], [], []⟩ : DriveClient.CacheState).appTable "A" =
      some ⟨⟨some (.str "m0"), none, some "h0", 10⟩, 10⟩) ∧
    ((⟨[("A", ⟨⟨some (.str "m0"), none, some "h0", 10⟩, 10⟩)],
        [], [], [], [], []⟩ : DriveClient.CacheState).appTable.length ≤
      DriveClient.APP_CACHE_MAX) ∧
    ((DriveClient.saveAppHtml (some "tk")
        ⟨[("A", ⟨⟨some (.str "m0"), none, some "h0", 10⟩, 10⟩)],
         [], [], [], [], []⟩ "A" "h1" (.ok (some "F1")) (some "ok") 7).1 =
      .ok "ok" ∧
    alget ((DriveClient.saveAppHtml (some "tk")
        ⟨[("A", ⟨⟨some (.str "m0"), none, some "h0", 10⟩, 10⟩)],
         [], [], [], [], []⟩ "A" "h1" (.ok (some "F1")) (some "ok") 7).2.1).appTable
        "A" =
      some ⟨⟨some (.str "m0"), none, some "h1", 10⟩, 7⟩) :=
  ⟨by decide, by decide,
   c7_only_saveAppHtml_refreshes_cache.1 "tk"
     ⟨[("A", ⟨⟨some (.str "m0"), none, some "h0", 10⟩, 10⟩)],
      [], [], [], [], []⟩ "A" "h1" "F1" "ok" 7
     ⟨⟨some (.str "m0"), none, some "h0", 10⟩, 10⟩ (by decide) (by decide)⟩

/-- C8: a validated `ready` message leaves the host state untouched and
produces exactly one `init` message carrying the manifest, params and the
*current* session's data (so two `ready` messages each get an `init` computed
from the state current at their own send time), and with no session loaded
the `init`'s session payload is the empty object. -/
theorem c8_ready_init (c : Nat) (m p : JVal) (cs : Option AppRunner.SessionSt)
    (save : Except String Unit) :
    AppRunner.handleMessage ⟨some c, m, p, cs⟩ ⟨c, .ready⟩ save =
      (⟨some c, m, p, cs⟩,
       [.init m p (AppRunner.sessionPayload ⟨some c, m, p, cs⟩)], []) ∧
    AppRunner.sessionPayload ⟨some c, m, p, none⟩ = .obj [] := by
  constructor
  · simp [AppRunner.handleMessage, AppRunner.sendInitToIframe]
  · rfl

/-- C9: an inbound message whose source is not the exact guest context the
host created (including the case where no guest context exists) is
discarded: the host state is unchanged, no message is posted and no save is
attempted. -/
theorem c9_source_mismatch (st : AppRunner.RunnerState)
    (ev : AppRunner.MsgEvent) (save : Except String Unit)
    (h : st.iframe ≠ some ev.source) :
    AppRunner.handleMessage st ev save = (st, [], []) := by
  unfold AppRunner.handleMessage
  cases hif : st.iframe with
  | none => rfl
  | some c =>
    have hne : ev.source ≠ c := fun he => h (by rw [hif, he])
    simp [hne]

/-- Witness for C9: a message from a foreign context (id 1) while the host
tracks context 0. -/
theorem c9_source_mismatch_witness :
    ((⟨some 0, .null, .null, none⟩ : AppRunner.RunnerState).iframe ≠
      some (⟨1, .ready⟩ : AppRunner.MsgEvent).source) ∧
    AppRunner.handleMessage ⟨some 0, .null, .null, none⟩ ⟨1, .ready⟩
        (.ok ()) =
      (⟨some 0, .null, .null, none⟩, [], []) :=
  ⟨by decide,
   c9_source_mismatch ⟨some 0, .null, .null, none⟩ ⟨1, .ready⟩ (.ok ())
     (by decide)⟩

/-- C10: a validated `update-session` arriving while no session is loaded is
ignored entirely — state unchanged, no save attempted, no `session-saved`
acknowledgement posted. -/
theorem c10_update_without_session (c : Nat) (m p d : JVal)
    (save : Except String Unit) :
    AppRunner.handleMessage ⟨some c, m, p, none⟩ ⟨c, .updateSession d⟩ save =
      (⟨some c, m, p, none⟩, [], []) := by
  simp [AppRunner.handleMessage, AppRunner.handleSessionUpdate]
